import Mathlib

/-!
Shallow embedding of the GoAccess log-parsing core (src/parser.c) and proofs
about the claims of the specification.  Functions of parser.c are translated
definition by definition; collaborator functions that live outside src/
(util.c, the hash-table layer, libc oracles) are either modelled from the
spec's words (marked in their doc comment) or abstracted into an `Ext`
record of oracles over which all theorems are universally quantified.
-/

namespace GoAccess

/-! ## Character classification (ctype.h, C locale) -/

def nulChar : Char := Char.ofNat 0

def isspaceA (c : Char) : Bool :=
  c == ' ' || c == '\t' || c == '\n' || c == Char.ofNat 11 || c == Char.ofNat 12 || c == '\r'

def isDigitA (c : Char) : Bool := '0' ≤ c && c ≤ '9'

def isxdigitA (c : Char) : Bool :=
  ('0' ≤ c && c ≤ '9') || ('a' ≤ c && c ≤ 'f') || ('A' ≤ c && c ≤ 'F')

def charUpper (c : Char) : Char :=
  if 'a' ≤ c && c ≤ 'z' then Char.ofNat (c.toNat - 32) else c

/-- BASE16_TO_10 macro of parser.c. -/
def hexVal (c : Char) : Nat :=
  if '0' ≤ c && c ≤ '9' then c.toNat - '0'.toNat
  else (charUpper c).toNat - 'A'.toNat + 10

/-! ## Utility functions from util.c (not in src/), modelled from the spec -/

/-- Modelled from the spec: `trim_str` (util.c, not in src/) removes leading and
trailing ASCII whitespace from a string. -/
def trimStrL (l : List Char) : List Char :=
  ((l.dropWhile (fun c => isspaceA c)).reverse.dropWhile (fun c => isspaceA c)).reverse

def trimStr (s : String) : String := String.mk (trimStrL s.data)

/-- Modelled from the spec: `strip_newlines` (util.c, not in src/) removes
carriage-return and line-feed bytes from a string. -/
def stripNewlinesL (l : List Char) : List Char :=
  l.filter (fun c => !(c == '\r' || c == '\n'))

/-- Modelled from the spec: `char_replace` (util.c, not in src/) replaces every
occurrence of one byte by another. -/
def charReplace (s : String) (a b : Char) : String :=
  String.mk (s.data.map (fun c => if c = a then b else c))

/-- Modelled from the spec: `count_matches` (util.c, not in src/) counts the
occurrences of a byte in a string; the tokenizer count for a date token is one
plus the number of spaces in the date format. -/
def countMatches (s : String) (c : Char) : Nat := s.data.count c

/-- Modelled from the spec: `strtoupper` (util.c, not in src/) uppercases the
ASCII letters of a string in place. -/
def strToUpper (s : String) : String := String.mk (s.data.map charUpper)

/-! ## C string searching (string.h) -/

/-- Model of `strstr`: the suffix of `s` beginning at the first occurrence of
`pat`, if any. -/
def strstrSuffix (s pat : List Char) : Option (List Char) :=
  if pat.isPrefixOf s then some s
  else
    match s with
    | [] => none
    | _ :: t => strstrSuffix t pat

/-- Model of `strchr`: the suffix of `s` beginning at the first occurrence of
`c`; searching for the terminator finds the end of the string. -/
def strchrSuffix (s : List Char) (c : Char) : Option (List Char) :=
  if c = nulChar then some []
  else
    match s with
    | [] => none
    | a :: t => if a = c then some (a :: t) else strchrSuffix t c

/-- Truncation at the first occurrence of `c` (writing a NUL over it); when `c`
does not occur the string is unchanged, matching the guarded `strchr` uses. -/
def takeUntilChar (s : List Char) (c : Char) : List Char :=
  s.takeWhile (fun a => a ≠ c)

/-- Truncation at the first occurrence of the substring `pat`; when `pat` does
not occur the string is unchanged. -/
def takeBeforeInfixL (s pat : List Char) : List Char :=
  if pat.isPrefixOf s then []
  else
    match s with
    | [] => []
    | a :: t => a :: takeBeforeInfixL t pat

def hasSub (s pat : String) : Bool := (strstrSuffix s.data pat.data).isSome

/-! ## URL decoding (decode_hex / decode_url of parser.c) -/

/-- Translation of `decode_hex` of parser.c: percent-decodes `%XX` when both
following bytes are hex digits, and passes every other byte through. -/
def decodeHexL : List Char → List Char
  | [] => []
  | '%' :: h1 :: h2 :: rest =>
    if isxdigitA h1 && isxdigitA h2 then
      Char.ofNat (hexVal h1 * 16 + hexVal h2) :: decodeHexL rest
    else '%' :: decodeHexL (h1 :: h2 :: rest)
  | c :: rest => c :: decodeHexL rest

/-! ## Configuration and oracles -/

/-- Configuration options read by the parsing core (settings.h collaborator).
The two flags parser.c itself writes (`conf.bandwidth`, `conf.serve_usecs`)
are only consumed by the renderer, which is out of scope, so `Conf` is
treated as immutable here. -/
structure Conf where
  log_format : String := ""
  date_format : String := ""
  double_decode : Bool := false
  append_method : Bool := false
  append_protocol : Bool := false
  ignore_qstr : Bool := false
  code444_as_404 : Bool := false
  client_err_to_unique_count : Bool := false
  ignore_crawlers : Bool := false
  ignore_ip_idx : Bool := false
  list_agents : Bool := false
  static_files : List String := []
  static_file_max_len : Nat := 0
  deriving DecidableEq

/-- Translation of `decode_url` of parser.c.  The in-place second pass of the C
code is equivalent to composing `decode_hex` twice because decoding never
expands the buffer.  A NULL result (empty input) is `none`. -/
def decodeUrl (conf : Conf) (url : String) : Option String :=
  if url = "" then none
  else
    let out := decodeHexL url.data
    let out := if conf.double_decode then decodeHexL out else out
    some (trimStr (String.mk (stripNewlinesL out)))

/-- External collaborators of parser.c (libc `strptime`/`strtod`, util.c IP
validation, GeoIP, the browser/OS oracle, the ignore lists).  All theorems are
universally quantified over this record. -/
structure Ext where
  strptimeOk : String → String → Bool
  invalidIp : String → Bool
  ipInRange : String → Bool
  isCrawler : String → Bool
  ignoreReferer : String → Bool
  convertDate : String → String → String
  deblank : String → String
  verifyBrowser : String → Option String
  verifyOs : String → Option String
  geoip : Bool
  geoipCountry : String → String
  strtodServe : String → Nat

/-! ## Numeric parsing (strtol / strtoull of libc, base 10) -/

def parseDigitsAux : List Char → Nat → Nat × List Char
  | [], acc => (acc, [])
  | c :: t, acc =>
    if isDigitA c then parseDigitsAux t (acc * 10 + (c.toNat - '0'.toNat))
    else (acc, c :: t)

/-- Subject-sequence parse of `strtol`/`strtoull` base 10: optional leading
whitespace, optional sign, at least one digit.  Returns the (unbounded) signed
value and the unconsumed rest; `none` when no conversion was performed. -/
def strtolParse (l : List Char) : Option (Int × List Char) :=
  let l1 := l.dropWhile (fun c => isspaceA c)
  let signed : Bool × List Char :=
    match l1 with
    | '-' :: t => (true, t)
    | '+' :: t => (false, t)
    | t => (false, t)
  match signed.2 with
  | c :: _ =>
    if isDigitA c then
      let vr := parseDigitsAux signed.2 0
      some (if signed.1 then -(vr.1 : Int) else (vr.1 : Int), vr.2)
    else none
  | [] => none

def inLongRange (v : Int) : Bool := decide (-(2 ^ 63) ≤ v ∧ v ≤ 2 ^ 63 - 1)

/-- The check `tkn == sEnd || *sEnd != '\0' || errno == ERANGE` used by the
`%s` branch: the whole token is one in-range base-10 number. -/
def strtolFullOk (s : String) : Bool :=
  match strtolParse s.data with
  | some vr => vr.2.isEmpty && inLongRange vr.1
  | none => false

/-- Value stored by the `%b` branch: the `strtol` result, or 0 when the token
is not entirely a number or is out of range. -/
def strtolOr0 (s : String) : Int :=
  match strtolParse s.data with
  | some vr => if vr.2.isEmpty && inLongRange vr.1 then vr.1 else 0
  | none => 0

/-- Value stored by the `%D` branch (`strtoull`, with the C wrap of negative
input), or 0 on a failed or out-of-range parse. -/
def strtoullOr0 (s : String) : Nat :=
  match strtolParse s.data with
  | some vr =>
    if vr.2.isEmpty && decide (vr.1.natAbs < 2 ^ 64) then
      (if vr.1 < 0 then ((2 ^ 64 : Int) + vr.1).toNat % 2 ^ 64 else vr.1.toNat)
    else 0
  | none => 0

/-! ## HTTP methods and protocol (extract_method / invalid_protocol) -/

/-- The literals of `extract_method`, in the order the C code tries them. -/
def methodList : List String :=
  ["OPTIONS", "GET", "HEAD", "POST", "PUT", "DELETE", "TRACE", "CONNECT", "PATCH",
   "options", "get", "head", "post", "put", "delete", "trace", "connect", "patch"]

/-- Translation of `extract_method` of parser.c: each `memcmp (token, lookfor,
strlen lookfor)` is a prefix comparison of the NUL-terminated token, so a
token merely beginning with a method name matches. -/
def extractMethod (token : String) : Option String :=
  methodList.find? (fun m => m.data.isPrefixOf token.data)

/-- Translation of `invalid_protocol` of parser.c (8-byte prefix comparisons). -/
def invalidProtocol (token : String) : Bool :=
  !(("HTTP/1.0".data.isPrefixOf token.data) || ("HTTP/1.1".data.isPrefixOf token.data))

/-- The fall-through of `parse_req`: keep the decoded request when `decode_url`
returned a (non-NULL) string, else keep the raw request. -/
def decodeReqOr (conf : Conf) (request : String) : String :=
  match decodeUrl conf request with
  | some d => d
  | none => request

def parseReqWith (conf : Conf) (l : List Char) (meth : String) (protoSuf : List Char) :
    String × Option String × Option String :=
  let reqStart := meth.length + 1
  let protoIdx := l.length - protoSuf.length
  if (protoIdx : Int) - (reqStart : Int) ≤ 0 then ("-", none, none)
  else
    let request := String.mk ((l.drop reqStart).take (protoIdx - reqStart))
    let m := if conf.append_method then some (strToUpper meth) else none
    let pr := if conf.append_protocol then some (strToUpper (String.mk (protoSuf.drop 1))) else none
    (decodeReqOr conf request, m, pr)

/-- Translation of `parse_req` of parser.c.  Returns the request and the
optional method/protocol assignments (made only under the append flags). -/
def parseReq (conf : Conf) (line : String) : String × Option String × Option String :=
  match extractMethod line with
  | none => (decodeReqOr conf line, none, none)
  | some meth =>
    match strstrSuffix line.data " HTTP/1.0".data with
    | some protoSuf => parseReqWith conf line.data meth protoSuf
    | none =>
      match strstrSuffix line.data " HTTP/1.1".data with
      | some protoSuf => parseReqWith conf line.data meth protoSuf
      | none => ("-", none, none)

/-! ## Referer site and keyphrases -/

/-- REF_SITE_LEN of the repository's headers (not in src/). -/
def REF_SITE_LEN : Nat := 512

/-- Translation of `extract_referer_site` of parser.c. -/
def extractRefererSite (referer : String) : Option String :=
  if referer = "" then none
  else
    match strstrSuffix referer.data "//".data with
    | none => none
    | some suf =>
      let b := suf.drop 2
      if b.length = 0 then none
      else
        let len :=
          match strchrSuffix b '/' with
          | some e => b.length - e.length
          | none => b.length
        if len = 0 then none
        else
          let len2 := if len ≥ REF_SITE_LEN then REF_SITE_LEN - 1 else len
          some (String.mk (b.take len2))

/-- Translation of `process_keyphrases` of parser.c, applied to the raw (not
yet decoded) referer.  Returns the keyphrase recorded into `keyphrases`, or
`none` when nothing is recorded. -/
def processKeyphrases (conf : Conf) (ref : String) : Option String :=
  let l := ref.data
  if !(hasSub ref "http://www.google." || hasSub ref "http://webcache.googleusercontent.com/" ||
        hasSub ref "http://translate.googleusercontent.com/") then none
  else if hasSub ref "/+&" then none
  else
    let anchor : Option (List Char × Bool) :=
      match strstrSuffix l "/+".data with
      | some r => some (r.drop 2, false)
      | none =>
        match strstrSuffix l "q=cache:".data with
        | some r =>
          some ((match strchrSuffix r '+' with
                 | some p => p.drop 1
                 | none => r), false)
        | none =>
          match strstrSuffix l "&q=".data with
          | some r => some (r.drop 3, false)
          | none =>
            match strstrSuffix l "?q=".data with
            | some r => some (r.drop 3, false)
            | none =>
              match strstrSuffix l "%26q%3D".data with
              | some r => some (r.drop 7, true)
              | none =>
                match strstrSuffix l "%3Fq%3D".data with
                | some r => some (r.drop 7, true)
                | none => none
    match anchor with
    | none => none
    | some rb =>
      let r2 := if !rb.2 then takeUntilChar rb.1 '&' else takeBeforeInfixL rb.1 "%26".data
      match decodeUrl conf (String.mk r2) with
      | none => none
      | some kp =>
        if kp = "" then none
        else some (trimStr (charReplace kp '+' ' '))

/-! ## The field tokenizer (parse_string of parser.c) -/

/-- Translation of the scanning loop of `parse_string`: consume bytes up to the
`cnt`-th unescaped occurrence of `endc` or to the end of the input.  A
backslash skips the following byte (both are kept in the token); a trailing
backslash falls out of the loop and yields NULL.  Returns the raw token and
the rest of the input, the delimiter included. -/
def parseStrAux (endc : Char) (cnt : Nat) : List Char → Nat → List Char → Option (List Char × List Char)
  | [], _, acc => some (acc.reverse, [])
  | c :: ls, idx, acc =>
    let idx2 := if c = endc then idx + 1 else idx
    if c = endc ∧ cnt = idx2 then some (acc.reverse, c :: ls)
    else if c = '\\' then
      match ls with
      | [] => none
      | d :: ls2 => parseStrAux endc cnt ls2 idx2 (d :: c :: acc)
    else parseStrAux endc cnt ls idx2 (c :: acc)

/-- Translation of `parse_string` of parser.c: the token is returned through
`trim_str`, and the cursor is left on the delimiter. -/
def parseString (str : List Char) (endc : Char) (cnt : Nat) : Option (String × List Char) :=
  match parseStrAux endc cnt str 0 [] with
  | none => none
  | some tr => some (trimStr (String.mk tr.1), tr.2)

/-! ## The parsed record (GLogItem) and the counters -/

/-- Translation of `GLogItem` of parser.h: each string field is NULL (`none`)
until its parser sets it; `resp_size` and `serve_time` start at 0; `site` is
the fixed buffer filled by `extract_referer_site`; `date_key` is filled by
`process_date`. -/
structure GLogItem where
  agent : Option String := none
  date : Option String := none
  host : Option String := none
  ref : Option String := none
  method : Option String := none
  protocol : Option String := none
  req : Option String := none
  status : Option String := none
  resp_size : Int := 0
  serve_time : Nat := 0
  site : String := ""
  req_key : Option String := none
  date_key : String := ""
  deriving DecidableEq

def initLogItem : GLogItem := {}

/-- Translation of `GLog` of parser.h: the driver's running counters. -/
structure GLog where
  process : Nat := 0
  invalid : Nat := 0
  exclude_ip : Nat := 0
  resp_size : Int := 0
  deriving DecidableEq

def initGLog : GLog := {}

/-- Modelled from the spec: the bank of named keyed counter tables (the hash
table layer is not in src/).  Each table is the list of keys dispatched to it,
most recent first; `counter.insert_unique` reports whether the key was absent
before the insertion.  The `date_bw`-style tables record (key, value) pairs. -/
structure Tables where
  unique_visitors : List String := []
  unique_vis : List String := []
  browsers : List String := []
  os : List String := []
  countries : List String := []
  keyphrases : List String := []
  status_code : List String := []
  not_found_requests : List String := []
  requests_static : List String := []
  requests : List String := []
  referrers : List String := []
  referring_sites : List String := []
  hosts : List String := []
  host_agents : List (String × String) := []
  date_bw : List (String × Int) := []
  file_bw : List (String × Int) := []
  host_bw : List (String × Int) := []
  file_serve_usecs : List (String × Nat) := []
  host_serve_usecs : List (String × Nat) := []
  deriving DecidableEq

def initTables : Tables := {}

/-! ## The specifier parser (parse_specifier of parser.c) -/

def SECS : Nat := 1000000

/-- Translation of `parse_specifier` of parser.c.  `none` models `return 1`
(the line is rejected); `some` returns the updated record and cursor.  The
`%T` branch abstracts the `strtod` path (a token containing a dot) through
the `Ext.strtodServe` oracle, floating point being outside the embedding. -/
def parseSpecifier (ext : Ext) (conf : Conf) (lfmt dfmt : String)
    (glog : GLogItem) (str : List Char) (p0 p1 : Char) :
    Option (GLogItem × List Char) :=
  match p0 with
  | 'd' =>
    if glog.date.isSome then none
    else
      match parseString str p1 (countMatches dfmt ' ' + 1) with
      | none => none
      | some (tkn, rest) =>
        if ext.strptimeOk tkn dfmt then some ({ glog with date := some tkn }, rest) else none
  | 'h' =>
    if glog.host.isSome then none
    else
      match parseString str p1 1 with
      | none => none
      | some (tkn, rest) =>
        if ext.invalidIp tkn then none else some ({ glog with host := some tkn }, rest)
  | 'm' =>
    if glog.method.isSome then none
    else
      match parseString str p1 1 with
      | none => none
      | some (tkn, rest) =>
        match extractMethod tkn with
        | none => none
        | some _ => some ({ glog with method := some tkn }, rest)
  | 'U' =>
    if glog.req.isSome then none
    else
      match parseString str p1 1 with
      | none => none
      | some (tkn, rest) =>
        if tkn = "" then none
        else
          match decodeUrl conf tkn with
          | none => none
          | some d => some ({ glog with req := some d }, rest)
  | 'H' =>
    if glog.protocol.isSome then none
    else
      match parseString str p1 1 with
      | none => none
      | some (tkn, rest) =>
        if invalidProtocol tkn then none else some ({ glog with protocol := some tkn }, rest)
  | 'r' =>
    if glog.req.isSome then none
    else
      match parseString str p1 1 with
      | none => none
      | some (tkn, rest) =>
        let rmp := parseReq conf tkn
        some ({ glog with
                req := some rmp.1,
                method := (match rmp.2.1 with | some x => some x | none => glog.method),
                protocol := (match rmp.2.2 with | some x => some x | none => glog.protocol) }, rest)
  | 's' =>
    if glog.status.isSome then none
    else
      match parseString str p1 1 with
      | none => none
      | some (tkn, rest) =>
        if strtolFullOk tkn then some ({ glog with status := some tkn }, rest) else none
  | 'b' =>
    if glog.resp_size ≠ 0 then none
    else
      match parseString str p1 1 with
      | none => none
      | some (tkn, rest) => some ({ glog with resp_size := strtolOr0 tkn }, rest)
  | 'R' =>
    if glog.ref.isSome then none
    else
      let tr : String × List Char :=
        match parseString str p1 1 with
        | none => ("-", str)
        | some (t, r) => (if t = "" then "-" else t, r)
      let site := if tr.1 ≠ "-" then (extractRefererSite tr.1).getD glog.site else glog.site
      some ({ glog with ref := some tr.1, site := site }, tr.2)
  | 'u' =>
    if glog.agent.isSome then none
    else
      match parseString str p1 1 with
      | some (t, rest) =>
        if t ≠ "" then
          some ({ glog with agent := some (charReplace ((decodeUrl conf t).getD "") '+' ' ') }, rest)
        else some ({ glog with agent := some "-" }, rest)
      | none => some ({ glog with agent := some "-" }, str)
  | 'T' =>
    if glog.serve_time ≠ 0 then none
    else if hasSub lfmt "%D" then some (glog, str)
    else
      match parseString str p1 1 with
      | none => none
      | some (tkn, rest) =>
        let usecs :=
          if tkn.data.contains '.' then ext.strtodServe tkn
          else
            let v := strtoullOr0 tkn
            if v > 0 then v * SECS else 0
        some ({ glog with serve_time := usecs }, rest)
  | 'D' =>
    if glog.serve_time ≠ 0 then none
    else
      match parseString str p1 1 with
      | none => none
      | some (tkn, rest) => some ({ glog with serve_time := strtoullOr0 tkn }, rest)
  | _ =>
    match strchrSuffix str p1 with
    | some suf => some (glog, suf)
    | none => some (glog, str)

/-! ## The line parser (parse_format of parser.c) -/

/-- Translation of the scanning loop of `parse_format`.  Note the second
branch tests `special && *p != '\0'`, which inside the loop is just
`special`; the following `else if (special && isspace (p[0])) return 1;` of
the C code is therefore unreachable and is kept here verbatim as dead code. -/
def parseFormatAux (ext : Ext) (conf : Conf) (lfmt dfmt : String) :
    List Char → Nat → GLogItem → List Char → Option GLogItem
  | [], _, glog, _ => some glog
  | p :: ps, special, glog, str =>
    if p = '%' then parseFormatAux ext conf lfmt dfmt ps (special + 1) glog str
    else if special ≠ 0 then
      if str.isEmpty then some glog
      else
        match parseSpecifier ext conf lfmt dfmt glog str p (ps.headD nulChar) with
        | none => none
        | some gs => parseFormatAux ext conf lfmt dfmt ps 0 gs.1 gs.2
    else if special ≠ 0 ∧ isspaceA p then none
    else parseFormatAux ext conf lfmt dfmt ps special glog (str.drop 1)

/-- Translation of `parse_format` of parser.c (an empty line rejects). -/
def parseFormat (ext : Ext) (conf : Conf) (lfmt dfmt : String)
    (glog : GLogItem) (str : List Char) : Option GLogItem :=
  if str.isEmpty then none
  else parseFormatAux ext conf lfmt dfmt lfmt.data 0 glog str

/-! ## Classification helpers -/

/-- The test `glog->status && !memcmp (glog->status, "404", 3)`: a 3-byte
prefix comparison of the NUL-terminated status. -/
def statusPrefix (st : Option String) (pre : String) : Bool :=
  match st with
  | some s => pre.data.isPrefixOf s.data
  | none => false

/-- The test `glog->status[0] == '4'` (false for a NULL or empty status). -/
def statusStarts4 (st : Option String) : Bool :=
  match st with
  | some s =>
    match s.data with
    | c :: _ => c = '4'
    | [] => false
  | none => false

/-- Translation of `verify_static_content` of parser.c. -/
def verifyStaticContent (conf : Conf) (req : String) : Bool :=
  if req.length < conf.static_file_max_len then false
  else conf.static_files.any (fun e => !(e == "") && e.data.isSuffixOf req.data)

/-- Translation of `append_method_to_request` of parser.c. -/
def appendMethodToRequest (key : String) (method : String) : String :=
  if key = "" then key
  else if method = "" then key
  else method ++ " " ++ key

/-- Translation of `append_protocol_to_request` of parser.c. -/
def appendProtocolToRequest (key : String) (protocol : String) : String :=
  if key = "" then key
  else if protocol = "" then key
  else protocol ++ " " ++ key

/-! ## Aggregation (process_unique_data and friends) -/

/-- Translation of `process_unique_data` of parser.c: build the visitor key
`host|date_key|deblank(agent)`, insert it into `unique_visitors`, and on a
first insertion dispatch to `unique_vis`, `browsers`, `os` and (with GeoIP
present) `countries`.  The UKEY_BUFFER snprintf truncation and the city/
continent metadata of the countries entry are not modelled; no claim
depends on them. -/
def processUniqueData (ext : Ext) (g : GLogItem) (tb : Tables) : Tables :=
  let a := ext.deblank (g.agent.getD "")
  let vkey := (g.host.getD "") ++ "|" ++ g.date_key ++ "|" ++ a
  let isNew := !(tb.unique_visitors.contains vkey)
  let tb1 := { tb with unique_visitors := vkey :: tb.unique_visitors }
  if isNew then
    let tb2 := { tb1 with unique_vis := g.date_key :: tb1.unique_vis }
    let tb3 :=
      match ext.verifyBrowser (g.agent.getD "") with
      | some b => { tb2 with browsers := b :: tb2.browsers }
      | none => tb2
    let tb4 :=
      match ext.verifyOs (g.agent.getD "") with
      | some o => { tb3 with os := o :: tb3.os }
      | none => tb3
    if ext.geoip then { tb4 with countries := ext.geoipCountry (g.host.getD "") :: tb4.countries }
    else tb4
  else tb1

/-- Translation of `unique_data` of parser.c: the gate in front of
`process_unique_data`. -/
def uniqueData (ext : Ext) (conf : Conf) (g : GLogItem) (tb : Tables) : Tables :=
  if g.status = none ∨ statusStarts4 g.status = false ∨
      (conf.client_err_to_unique_count ∧ statusStarts4 g.status = true) then
    processUniqueData ext g tb
  else tb

/-- Translation of `process_referrers` of parser.c: referring site, keyphrases
on the raw referer, then the decoded referer. -/
def processReferrers (conf : Conf) (referrer : Option String) (site : String) (tb : Tables) : Tables :=
  match referrer with
  | none => tb
  | some r =>
    let tb1 := if site ≠ "" then { tb with referring_sites := site :: tb.referring_sites } else tb
    let tb2 :=
      match processKeyphrases conf r with
      | some kp => { tb1 with keyphrases := kp :: tb1.keyphrases }
      | none => tb1
    match decodeUrl conf r with
    | none => tb2
    | some ref => if ref = "" then tb2 else { tb2 with referrers := ref :: tb2.referrers }

/-- Modelled from the spec: `process_host_agents` (not in src/) appends the
agent to the host's unique agent list. -/
def processHostAgents (host agent : String) (tb : Tables) : Tables :=
  if tb.host_agents.contains (host, agent) then tb
  else { tb with host_agents := (host, agent) :: tb.host_agents }

/-- Translation of `process_log` of parser.c: 404/static classification,
query-string stripping, request-key construction, the unique pass, and the
dispatch into the counter tables.  Returns the final record (whose `req`,
`method`, `protocol`, `req_key` the C code mutates) and the updated tables. -/
def processLog (ext : Ext) (conf : Conf) (glog : GLogItem) (tb : Tables) : GLogItem × Tables :=
  let req0 := glog.req.getD ""
  let s404 := statusPrefix glog.status "404"
  let s444 := statusPrefix glog.status "444"
  let qs := req0.data.takeWhile (fun c => c ≠ '?')
  let isReq : Bool × String :=
    if s404 then (true, req0)
    else if s444 && conf.code444_as_404 then (true, req0)
    else if conf.ignore_qstr && req0.data.contains '?' then
      (false, if qs.length > 0 then String.mk qs else req0)
    else (false, req0)
  let is404 := isReq.1
  let req1 := isReq.2
  let mk1 : Option String × String :=
    if conf.append_method && glog.method.isSome then
      let m := strToUpper (glog.method.getD "")
      (some m, appendMethodToRequest req1 m)
    else (glog.method, req1)
  let pk2 : Option String × String :=
    if conf.append_protocol && glog.protocol.isSome then
      let pr := strToUpper (glog.protocol.getD "")
      (some pr, appendProtocolToRequest mk1.2 pr)
    else (glog.protocol, mk1.2)
  let key := if conf.append_method || conf.append_protocol then ext.deblank pk2.2 else pk2.2
  let g : GLogItem :=
    { glog with req := some req1, method := mk1.1, protocol := pk2.1, req_key := some key }
  let tb1 := uniqueData ext conf g tb
  let tb2 := if conf.list_agents then processHostAgents (g.host.getD "") (g.agent.getD "") tb1 else tb1
  let tb3 :=
    if g.status.isSome then { tb2 with status_code := (g.status.getD "") :: tb2.status_code }
    else tb2
  let tb4 :=
    if is404 then { tb3 with not_found_requests := key :: tb3.not_found_requests }
    else if verifyStaticContent conf req1 then { tb3 with requests_static := key :: tb3.requests_static }
    else { tb3 with requests := key :: tb3.requests }
  let tb5 := processReferrers conf g.ref g.site tb4
  let tb6 := { tb5 with hosts := (g.host.getD "") :: tb5.hosts }
  let tb7 := { tb6 with date_bw := (g.date_key, g.resp_size) :: tb6.date_bw }
  let tb8 := { tb7 with file_bw := (key, g.resp_size) :: tb7.file_bw }
  let tb9 := { tb8 with host_bw := ((g.host.getD ""), g.resp_size) :: tb8.host_bw }
  let tbA := { tb9 with file_serve_usecs := (key, g.serve_time) :: tb9.file_serve_usecs }
  let tbB := { tbA with host_serve_usecs := ((g.host.getD ""), g.serve_time) :: tbA.host_serve_usecs }
  (g, tbB)

/-! ## The driver (pre_process_log / read_log / parse_log / test_format) -/

/-- Translation of `valid_line` of parser.c. -/
def validLine (line : String) : Bool :=
  match line.data with
  | [] => true
  | c :: _ => c = '#' || c = '\n'

/-- Translation of `count_invalid` of parser.c (the TCB_BTREE general-stats
dispatch is conditional compilation absent from the default build and is not
modelled). -/
def countInvalid (logger : GLog) : GLog :=
  { logger with invalid := logger.invalid + 1 }

/-- Translation of `count_process` of parser.c (spinner locking and the
TCB_BTREE dispatch not modelled). -/
def countProcess (logger : GLog) : GLog :=
  { logger with process := logger.process + 1 }

/-- Translation of `pre_process_log` of parser.c.  `process_date` cannot fail
(`glog->date_key` is an array field, never NULL), so it is the unconditional
`convert_date` assignment here.  The state is the pair of driver counters and
counter tables. -/
def preProcessLog (ext : Ext) (conf : Conf) (test : Bool) (line : String)
    (st : GLog × Tables) : GLog × Tables :=
  if validLine line then (countInvalid st.1, st.2)
  else
    let logger := countProcess st.1
    match parseFormat ext conf conf.log_format conf.date_format initLogItem line.data with
    | none => (countInvalid logger, st.2)
    | some g0 =>
      if g0.host = none ∨ g0.date = none ∨ g0.req = none then (countInvalid logger, st.2)
      else
        let g1 := if g0.agent = none then { g0 with agent := some "-" } else g0
        if test then (logger, st.2)
        else
          let g2 := { g1 with date_key := ext.convertDate (g1.date.getD "") conf.date_format }
          if conf.ignore_ip_idx && ext.ipInRange (g2.host.getD "") then
            ({ logger with exclude_ip := logger.exclude_ip + 1 }, st.2)
          else if conf.ignore_crawlers && ext.isCrawler (g2.agent.getD "") then (logger, st.2)
          else if ext.ignoreReferer g2.site then (logger, st.2)
          else
            let logger2 := { logger with resp_size := logger.resp_size + g2.resp_size }
            (logger2, (processLog ext conf g2 st.2).2)

/-- Translation of the reading loop of `read_log`: in test mode (`n ≥ 0`) stop
before the `n+1`-st line. -/
def readLogAux (ext : Ext) (conf : Conf) (test : Bool) (n : Int) :
    List String → Int → GLog × Tables → GLog × Tables
  | [], _, st => st
  | line :: rest, i, st =>
    if 0 ≤ n ∧ i = n then st
    else readLogAux ext conf test n rest (i + 1) (preProcessLog ext conf test line st)

/-- Translation of `read_log` of parser.c over a list of input lines
(`test = -1 == n ? 0 : 1`). -/
def readLog (ext : Ext) (conf : Conf) (lines : List String) (n : Int)
    (st : GLog × Tables) : GLog × Tables :=
  readLogAux ext conf (if n = -1 then false else true) n lines 0 st

/-- Translation of `parse_log` of parser.c; `none` models the FATAL exits for
a missing date or log format. -/
def parseLog (ext : Ext) (conf : Conf) (tail : Option String) (lines : List String)
    (n : Int) (st : GLog × Tables) : Option (GLog × Tables) :=
  if conf.date_format = "" ∨ conf.log_format = "" then none
  else
    match tail with
    | some t => some (preProcessLog ext conf (if n = -1 then false else true) t st)
    | none => some (readLog ext conf lines n st)

/-- Translation of `test_format` of parser.c: run `parse_log` with `n = 20` on
fresh counters; success (`true`, C return 0) unless no line was processed or
every processed line was invalid. -/
def testFormat (ext : Ext) (conf : Conf) (lines : List String) : Option Bool :=
  match parseLog ext conf none lines 20 (initGLog, initTables) with
  | none => none
  | some st => some (!(st.1.process == 0 || st.1.process == st.1.invalid))

/-! ## Line classification for the counter invariant -/

/-- The disposition of one input line in full (non-test) mode: ignored
comment/empty lines, invalid lines, lines dropped by the IP/crawler/referer
filters, and accepted lines (fully parsed with host, date and req set, and
retained). -/
inductive LineClass where
  | ignored
  | invalid
  | excluded
  | accepted
  deriving DecidableEq

/-- The classification realized by `pre_process_log` in full mode, stated as a
function of the line so the counter invariant can be expressed. -/
def classifyLine (ext : Ext) (conf : Conf) (line : String) : LineClass :=
  if validLine line then .ignored
  else
    match parseFormat ext conf conf.log_format conf.date_format initLogItem line.data with
    | none => .invalid
    | some g0 =>
      if g0.host = none ∨ g0.date = none ∨ g0.req = none then .invalid
      else
        let g1 := if g0.agent = none then { g0 with agent := some "-" } else g0
        let g2 := { g1 with date_key := ext.convertDate (g1.date.getD "") conf.date_format }
        if conf.ignore_ip_idx && ext.ipInRange (g2.host.getD "") then .excluded
        else if conf.ignore_crawlers && ext.isCrawler (g2.agent.getD "") then .excluded
        else if ext.ignoreReferer g2.site then .excluded
        else .accepted

/-! ## Support definitions for the theorems -/

/-- The five tables reached only through the unique-visitor path
(`process_unique_data`). -/
def uniqueTables (tb : Tables) :
    List String × List String × List String × List String × List String :=
  (tb.unique_visitors, tb.unique_vis, tb.browsers, tb.os, tb.countries)

/-- A concrete, trivial instantiation of the external collaborators, used by
the closed evaluations. -/
def ext0 : Ext := {
  strptimeOk := fun _ _ => true,
  invalidIp := fun _ => false,
  ipInRange := fun _ => false,
  isCrawler := fun _ => false,
  ignoreReferer := fun _ => false,
  convertDate := fun d _ => d,
  deblank := fun s => s,
  verifyBrowser := fun _ => none,
  verifyOs := fun _ => none,
  geoip := false,
  geoipCountry := fun _ => "",
  strtodServe := fun _ => 0 }

def conf0 : Conf := {}

/-- Configuration with the double-decode flag set. -/
def confDD : Conf := { double_decode := true }

/-- Configuration with query-string stripping enabled. -/
def confQS : Conf := { ignore_qstr := true }

/-- A minimal working log/date format configuration. -/
def confW : Conf := { log_format := "%h %d %U", date_format := "%Y" }

/-- The format of the C9 failing input: it contains `%` followed by a space. -/
def conf9 : Conf := { log_format := "%h|%d|%U|% ", date_format := "%Y" }

/-- Configuration with 4xx records excluded from the unique count. -/
def conf4 : Conf := { client_err_to_unique_count := false }

/-- Configuration with 4xx records included in the unique count. -/
def conf4b : Conf := { client_err_to_unique_count := true }

/-- A record with every specifier-settable field set and nonzero numerics. -/
def glogAll : GLogItem :=
  { agent := some "A", date := some "D", host := some "H", ref := some "R",
    method := some "GET", protocol := some "HTTP/1.1", req := some "/r",
    status := some "200", resp_size := 7, serve_time := 9 }

/-- A retained 404 record with a query string in its request. -/
def glog404q : GLogItem :=
  { host := some "1.2.3.4", date := some "x", agent := some "-",
    status := some "404", req := some "/a?b", date_key := "20140101" }

/-- The same record with a 200 status. -/
def glog200q : GLogItem :=
  { host := some "1.2.3.4", date := some "x", agent := some "-",
    status := some "200", req := some "/a?b", date_key := "20140101" }

/-- A retained record with no query string. -/
def glogPlain : GLogItem :=
  { host := some "1.2.3.4", date := some "x", agent := some "-",
    status := some "200", req := some "/abc", date_key := "20140101" }

/-- A retained record whose status was never set. -/
def glogNoStatus : GLogItem :=
  { host := some "1.2.3.4", date := some "x", agent := some "-",
    status := none, req := some "/abc", date_key := "20140101" }

/-- The Google referer of the spec's fourth scenario. -/
def refGoogle : String := "http://www.google.com/search?q=hello+world&hl=en"

/-! ## Theorems -/

/-- C3 is false as stated for the numeric specifiers: with format `%b %b` and
line `0 5`, the first `%b` sets `resp_size` (to 0), yet the second `%b` is
accepted and overwrites it with 5 — the line is not rejected. -/
theorem c3_counterexample :
    (parseFormat ext0 conf0 "%b %b" "%Y" initLogItem "0 5".data).map (fun g => g.resp_size)
      = some 5 := by
  rfl

/-- C3 (amended): every string-valued specifier rejects the line when its
target field is already set; the numeric specifiers `%b`, `%T` and `%D`
reject a second occurrence exactly when the stored value is nonzero (a first
occurrence that stored 0 does not arm the guard). -/
theorem c3_amended (ext : Ext) (conf : Conf) (lfmt dfmt : String) (glog : GLogItem)
    (str : List Char) (p1 : Char) :
    (glog.date.isSome = true → parseSpecifier ext conf lfmt dfmt glog str 'd' p1 = none)
  ∧ (glog.host.isSome = true → parseSpecifier ext conf lfmt dfmt glog str 'h' p1 = none)
  ∧ (glog.method.isSome = true → parseSpecifier ext conf lfmt dfmt glog str 'm' p1 = none)
  ∧ (glog.req.isSome = true → parseSpecifier ext conf lfmt dfmt glog str 'U' p1 = none)
  ∧ (glog.protocol.isSome = true → parseSpecifier ext conf lfmt dfmt glog str 'H' p1 = none)
  ∧ (glog.req.isSome = true → parseSpecifier ext conf lfmt dfmt glog str 'r' p1 = none)
  ∧ (glog.status.isSome = true → parseSpecifier ext conf lfmt dfmt glog str 's' p1 = none)
  ∧ (glog.ref.isSome = true → parseSpecifier ext conf lfmt dfmt glog str 'R' p1 = none)
  ∧ (glog.agent.isSome = true → parseSpecifier ext conf lfmt dfmt glog str 'u' p1 = none)
  ∧ (glog.resp_size ≠ 0 → parseSpecifier ext conf lfmt dfmt glog str 'b' p1 = none)
  ∧ (glog.serve_time ≠ 0 → parseSpecifier ext conf lfmt dfmt glog str 'T' p1 = none)
  ∧ (glog.serve_time ≠ 0 → parseSpecifier ext conf lfmt dfmt glog str 'D' p1 = none) := by
  refine ⟨?_, ?_, ?_, ?_, ?_, ?_, ?_, ?_, ?_, ?_, ?_, ?_⟩ <;>
    intro h <;> simp [parseSpecifier, h]

/-- Witness for the amended C3 at a record with every field set. -/
theorem c3_amended_witness :
    parseSpecifier ext0 conf0 "" "" glogAll "x".data 'd' ' ' = none
  ∧ parseSpecifier ext0 conf0 "" "" glogAll "x".data 'h' ' ' = none
  ∧ parseSpecifier ext0 conf0 "" "" glogAll "x".data 'b' ' ' = none
  ∧ parseSpecifier ext0 conf0 "" "" glogAll "x".data 'T' ' ' = none
  ∧ parseSpecifier ext0 conf0 "" "" glogAll "x".data 'D' ' ' = none := by
  have h := c3_amended ext0 conf0 "" "" glogAll "x".data ' '
  exact ⟨h.1 (by decide), h.2.1 (by decide), h.2.2.2.2.2.2.2.2.2.1 (by decide),
         h.2.2.2.2.2.2.2.2.2.2.1 (by decide), h.2.2.2.2.2.2.2.2.2.2.2 (by decide)⟩

/-- C7 is false as stated in both directions: the token `GETX` is not an HTTP
method yet `%m` accepts it (prefix `memcmp`), and the mixed-case token `GeT`
is a case-insensitive method yet `extract_method` rejects it (only the
all-upper and all-lower spellings are compared). -/
theorem c7_counterexample :
    (parseSpecifier ext0 conf0 "" "" initLogItem "GETX".data 'm' ' ').map (fun x => x.1.method)
      = some (some "GETX")
  ∧ extractMethod "GeT" = none := by
  exact ⟨rfl, rfl⟩

/-- C7 (amended): the `%m` parser accepts its token exactly when one of the
eighteen method literals (the nine upper-case and the nine lower-case
spellings) is a prefix of the token; acceptance stores the raw token. -/
theorem c7_amended (ext : Ext) (conf : Conf) (lfmt dfmt : String) (glog : GLogItem)
    (str rest : List Char) (p1 : Char) (tkn : String)
    (hm : glog.method = none)
    (hp : parseString str p1 1 = some (tkn, rest)) :
    ((extractMethod tkn).isSome = true ↔ ∃ m ∈ methodList, m.data.isPrefixOf tkn.data = true)
  ∧ (parseSpecifier ext conf lfmt dfmt glog str 'm' p1 = none ↔ extractMethod tkn = none)
  ∧ ((extractMethod tkn).isSome = true →
      parseSpecifier ext conf lfmt dfmt glog str 'm' p1
        = some ({ glog with method := some tkn }, rest)) := by
  refine ⟨?_, ?_, ?_⟩
  · simp [extractMethod, List.find?_isSome]
  · simp only [parseSpecifier, hm, Option.isSome_none, Bool.false_eq_true, if_false, hp]
    cases h : extractMethod tkn <;> simp [h]
  · intro h
    simp only [parseSpecifier, hm, Option.isSome_none, Bool.false_eq_true, if_false, hp]
    cases he : extractMethod tkn
    · rw [he] at h; simp at h
    · simp

/-- Witness for the amended C7 on the token `GET`. -/
theorem c7_amended_witness :
    parseSpecifier ext0 conf0 "" "" initLogItem "GET /x".data 'm' ' '
      = some ({ initLogItem with method := some "GET" }, " /x".data) := by
  have h := c7_amended ext0 conf0 "" "" initLogItem "GET /x".data " /x".data ' ' "GET"
    rfl rfl
  exact h.2.2 (by decide)

/-- C9: the claim is right about the intent but wrong about the code: the
branch `else if (special && isspace (p[0])) return 1;` of `parse_format` is
unreachable (shadowed by `special && *p != '\0'`), so a `%` followed by a
space is handled as a pass-through specifier and the line is accepted, not
rejected.  The format of `conf9` contains `% `, the input line parses fully
(process = 1, invalid = 0). -/
theorem c9_dead_branch :
    hasSub conf9.log_format "% " = true
  ∧ (preProcessLog ext0 conf9 true "1.2.3.4|2014|/x|y" (initGLog, initTables)).1.invalid = 0
  ∧ (preProcessLog ext0 conf9 true "1.2.3.4|2014|/x|y" (initGLog, initTables)).1.process = 1 := by
  exact ⟨rfl, rfl, rfl⟩

/-! ## Frame lemmas: only the unique pass touches the unique tables -/

theorem processReferrers_keeps_unique (conf : Conf) (r : Option String) (site : String)
    (tb : Tables) : uniqueTables (processReferrers conf r site tb) = uniqueTables tb := by
  unfold processReferrers
  cases r with
  | none => rfl
  | some s =>
    dsimp only
    repeat' split
    all_goals rfl

theorem processHostAgents_keeps_unique (h a : String) (tb : Tables) :
    uniqueTables (processHostAgents h a tb) = uniqueTables tb := by
  unfold processHostAgents
  split <;> rfl

@[simp] theorem processReferrers_uv (conf : Conf) (r : Option String) (site : String)
    (tb : Tables) : (processReferrers conf r site tb).unique_visitors = tb.unique_visitors :=
  congrArg (fun t => t.1) (processReferrers_keeps_unique conf r site tb)

@[simp] theorem processReferrers_uvis (conf : Conf) (r : Option String) (site : String)
    (tb : Tables) : (processReferrers conf r site tb).unique_vis = tb.unique_vis :=
  congrArg (fun t => t.2.1) (processReferrers_keeps_unique conf r site tb)

@[simp] theorem processReferrers_browsers (conf : Conf) (r : Option String) (site : String)
    (tb : Tables) : (processReferrers conf r site tb).browsers = tb.browsers :=
  congrArg (fun t => t.2.2.1) (processReferrers_keeps_unique conf r site tb)

@[simp] theorem processReferrers_os (conf : Conf) (r : Option String) (site : String)
    (tb : Tables) : (processReferrers conf r site tb).os = tb.os :=
  congrArg (fun t => t.2.2.2.1) (processReferrers_keeps_unique conf r site tb)

@[simp] theorem processReferrers_countries (conf : Conf) (r : Option String) (site : String)
    (tb : Tables) : (processReferrers conf r site tb).countries = tb.countries :=
  congrArg (fun t => t.2.2.2.2) (processReferrers_keeps_unique conf r site tb)

@[simp] theorem processHostAgents_uv (h a : String) (tb : Tables) :
    (processHostAgents h a tb).unique_visitors = tb.unique_visitors :=
  congrArg (fun t => t.1) (processHostAgents_keeps_unique h a tb)

@[simp] theorem processHostAgents_uvis (h a : String) (tb : Tables) :
    (processHostAgents h a tb).unique_vis = tb.unique_vis :=
  congrArg (fun t => t.2.1) (processHostAgents_keeps_unique h a tb)

@[simp] theorem processHostAgents_browsers (h a : String) (tb : Tables) :
    (processHostAgents h a tb).browsers = tb.browsers :=
  congrArg (fun t => t.2.2.1) (processHostAgents_keeps_unique h a tb)

@[simp] theorem processHostAgents_os (h a : String) (tb : Tables) :
    (processHostAgents h a tb).os = tb.os :=
  congrArg (fun t => t.2.2.2.1) (processHostAgents_keeps_unique h a tb)

@[simp] theorem processHostAgents_countries (h a : String) (tb : Tables) :
    (processHostAgents h a tb).countries = tb.countries :=
  congrArg (fun t => t.2.2.2.2) (processHostAgents_keeps_unique h a tb)

@[simp] theorem ite_uv (c : Prop) [Decidable c] (a b : Tables) :
    (if c then a else b).unique_visitors = if c then a.unique_visitors else b.unique_visitors := by
  split <;> rfl

@[simp] theorem ite_uvis (c : Prop) [Decidable c] (a b : Tables) :
    (if c then a else b).unique_vis = if c then a.unique_vis else b.unique_vis := by
  split <;> rfl

@[simp] theorem ite_browsers (c : Prop) [Decidable c] (a b : Tables) :
    (if c then a else b).browsers = if c then a.browsers else b.browsers := by
  split <;> rfl

@[simp] theorem ite_os (c : Prop) [Decidable c] (a b : Tables) :
    (if c then a else b).os = if c then a.os else b.os := by
  split <;> rfl

@[simp] theorem ite_countries (c : Prop) [Decidable c] (a b : Tables) :
    (if c then a else b).countries = if c then a.countries else b.countries := by
  split <;> rfl

/-- The record rebuilt inside `process_log` keeps the four fields that the
unique pass reads, so the gate behaves as on the original record. -/
theorem uniqueData_reqfields (ext : Ext) (conf : Conf) (glog : GLogItem) (tb : Tables)
    (r k : Option String) (m p : Option String) :
    uniqueData ext conf { glog with req := r, method := m, protocol := p, req_key := k } tb
      = uniqueData ext conf glog tb := by
  rfl

/-- Everything `process_log` does after the unique pass leaves the five
unique tables unchanged. -/
theorem processLog_uniqueTables (ext : Ext) (conf : Conf) (glog : GLogItem) (tb : Tables) :
    uniqueTables (processLog ext conf glog tb).2 = uniqueTables (uniqueData ext conf glog tb) := by
  unfold processLog
  dsimp only
  rw [uniqueData_reqfields]
  simp [uniqueTables]

theorem statusStarts4_ne_none (st : Option String) (h : statusStarts4 st = true) :
    st ≠ none := by
  cases st with
  | none => simp [statusStarts4] at h
  | some s => exact fun hh => nomatch hh

/-- C4: with `client_err_to_unique_count` unset, a record whose status starts
with `4` never reaches `process_unique_data` (the five unique tables are
untouched by `process_log`); with the flag set, every retained record is
dispatched through the unique path. -/
theorem c4_unique_gate (ext : Ext) (conf : Conf) (glog : GLogItem) (tb : Tables) :
    (conf.client_err_to_unique_count = false → statusStarts4 glog.status = true →
      uniqueTables (processLog ext conf glog tb).2 = uniqueTables tb)
  ∧ (conf.client_err_to_unique_count = true →
      uniqueTables (processLog ext conf glog tb).2
        = uniqueTables (processUniqueData ext glog tb)) := by
  constructor
  · intro hf hs
    rw [processLog_uniqueTables]
    unfold uniqueData
    rw [if_neg]
    push_neg
    exact ⟨statusStarts4_ne_none _ hs, by simp [hs], by simp [hf]⟩
  · intro hf
    rw [processLog_uniqueTables]
    unfold uniqueData
    rw [if_pos]
    by_cases h4 : statusStarts4 glog.status = true
    · exact Or.inr (Or.inr ⟨by simp [hf], h4⟩)
    · exact Or.inr (Or.inl (by simpa using h4))

/-- Witness for C4: a retained 404 record is kept out of the unique tables
when the flag is unset, and goes through `process_unique_data` when set. -/
theorem c4_unique_gate_witness :
    uniqueTables (processLog ext0 conf4 glog404q initTables).2 = uniqueTables initTables
  ∧ uniqueTables (processLog ext0 conf4b glog404q initTables).2
      = uniqueTables (processUniqueData ext0 glog404q initTables) := by
  exact ⟨(c4_unique_gate ext0 conf4 glog404q initTables).1 rfl rfl,
         (c4_unique_gate ext0 conf4b glog404q initTables).2 rfl⟩

/-- C10: a retained record whose status was never set (no `%s` in the format)
is always dispatched through the unique-visitor path, whatever the value of
`client_err_to_unique_count` (the theorem quantifies over the whole
configuration). -/
theorem c10_no_status_unique (ext : Ext) (conf : Conf) (glog : GLogItem) (tb : Tables)
    (h : glog.status = none) :
    uniqueTables (processLog ext conf glog tb).2 = uniqueTables (processUniqueData ext glog tb) := by
  rw [processLog_uniqueTables]
  unfold uniqueData
  rw [if_pos (Or.inl h)]

/-- Witness for C10 under both values of the flag. -/
theorem c10_no_status_unique_witness :
    uniqueTables (processLog ext0 conf4 glogNoStatus initTables).2
      = uniqueTables (processUniqueData ext0 glogNoStatus initTables)
  ∧ uniqueTables (processLog ext0 conf4b glogNoStatus initTables).2
      = uniqueTables (processUniqueData ext0 glogNoStatus initTables) := by
  exact ⟨c10_no_status_unique ext0 conf4 glogNoStatus initTables rfl,
         c10_no_status_unique ext0 conf4b glogNoStatus initTables rfl⟩

/-! ## C5: query-string stripping -/

theorem uniqueData_iq (ext : Ext) (conf : Conf) (b : Bool) (g : GLogItem) (tb : Tables) :
    uniqueData ext { conf with ignore_qstr := b } g tb = uniqueData ext conf g tb := rfl

theorem processReferrers_iq (conf : Conf) (b : Bool) (r : Option String) (site : String)
    (tb : Tables) :
    processReferrers { conf with ignore_qstr := b } r site tb = processReferrers conf r site tb := rfl

theorem verifyStaticContent_iq (conf : Conf) (b : Bool) (req : String) :
    verifyStaticContent { conf with ignore_qstr := b } req = verifyStaticContent conf req := rfl

theorem not_mem_takeWhile_ne (l : List Char) (c : Char) :
    c ∉ l.takeWhile (fun a => !decide (a = c)) := by
  intro hm
  have hp := List.mem_takeWhile_imp hm
  simp at hp

/-- C5 (amended): `req_key` is independent of `ignore_qstr` for requests
without `?` (the whole `process_log` result is); and when `ignore_qstr` is
set, the request contains `?` at offset > 0 **and the record is not
classified as a 404** (neither status 404, nor 444 with `code444_as_404`),
the key is built from the prefix of the request before the first `?`.  The
404/444 restriction is forced by the `else if` chain of `process_log`: a 404
record skips the stripping branch, see the counterexample. -/
theorem c5_amended (ext : Ext) (conf : Conf) (glog : GLogItem) (tb : Tables) (r : String) :
    (glog.req = some r → r.data.contains '?' = false →
      processLog ext { conf with ignore_qstr := true } glog tb
        = processLog ext { conf with ignore_qstr := false } glog tb)
  ∧ (glog.req = some r → conf.ignore_qstr = true → r.data.contains '?' = true →
      0 < (r.data.takeWhile (fun c => c ≠ '?')).length →
      statusPrefix glog.status "404" = false →
      (statusPrefix glog.status "444" && conf.code444_as_404) = false →
      (processLog ext conf glog tb).1.req_key
        = (processLog ext conf
            { glog with req := some (String.mk (r.data.takeWhile (fun c => c ≠ '?'))) } tb).1.req_key) := by
  constructor
  · intro h1 h2
    have h2m : '?' ∉ r.data := by simpa using h2
    unfold processLog
    rw [h1]
    simp only [uniqueData_iq, processReferrers_iq, verifyStaticContent_iq]
    simp [h2m]
  · intro h1 hq hc hl h404 h444
    have hcm : '?' ∈ r.data := by simpa using hc
    have hlm : 0 < (r.data.takeWhile (fun c => !decide (c = '?'))).length := by simpa using hl
    have hfull : processLog ext conf glog tb
        = processLog ext conf
            { glog with req := some (String.mk (r.data.takeWhile (fun c => c ≠ '?'))) } tb := by
      unfold processLog
      rw [h1]
      simp [h404, h444, hq, hcm, hlm, not_mem_takeWhile_ne]
    rw [hfull]

/-- C5 is false as stated for 404 records: with `ignore_qstr` set and a 404
status, the request `/a?b` is not truncated at the `?` — `req_key` stays
`/a?b` instead of the claimed prefix `/a`. -/
theorem c5_counterexample :
    (processLog ext0 confQS glog404q initTables).1.req_key = some "/a?b"
  ∧ (processLog ext0 confQS glog404q initTables).1.req_key ≠ some "/a" := by
  exact ⟨rfl, by decide⟩

/-- Witness for the amended C5: a request without `?` under both flag values,
and a 200 record with `/a?b` stripped to `/a`. -/
theorem c5_amended_witness :
    processLog ext0 { conf0 with ignore_qstr := true } glogPlain initTables
      = processLog ext0 { conf0 with ignore_qstr := false } glogPlain initTables
  ∧ (processLog ext0 confQS glog200q initTables).1.req_key
      = (processLog ext0 confQS
          { glog200q with req := some (String.mk ("/a?b".data.takeWhile (fun c => c ≠ '?'))) }
          initTables).1.req_key := by
  exact ⟨(c5_amended ext0 conf0 glogPlain initTables "/abc").1 rfl (by decide),
         (c5_amended ext0 confQS glog200q initTables "/a?b").2 rfl rfl (by decide) (by decide)
           (by decide) (by decide)⟩

/-! ## C6: the URL decoder -/

theorem decodeHexL_one (c : Char) : decodeHexL [c] = [c] := by
  rw [decodeHexL.eq_def]
  split <;> simp_all [decodeHexL]

@[simp] theorem ite_keyphrases (c : Prop) [Decidable c] (a b : Tables) :
    (if c then a else b).keyphrases = if c then a.keyphrases else b.keyphrases := by
  split <;> rfl

/-- C6: `decode_url` percent-decodes every `%XX` with two hex digits, passes
non-hex `%` sequences through verbatim, runs a second pass exactly when
`double_decode` is set, then removes `\r`/`\n` bytes and trims ASCII
whitespace; NULL (empty) input yields no output. -/
theorem c6_decode_url (conf : Conf) (s : String) :
    decodeUrl conf "" = none
  ∧ (s ≠ "" → decodeUrl conf s
      = some (trimStr (String.mk (stripNewlinesL
          (if conf.double_decode then decodeHexL (decodeHexL s.data) else decodeHexL s.data)))))
  ∧ (∀ h1 h2 rest, isxdigitA h1 = true → isxdigitA h2 = true →
      decodeHexL ('%' :: h1 :: h2 :: rest)
        = Char.ofNat (hexVal h1 * 16 + hexVal h2) :: decodeHexL rest)
  ∧ (∀ h1 h2 rest, (isxdigitA h1 && isxdigitA h2) = false →
      decodeHexL ('%' :: h1 :: h2 :: rest) = '%' :: decodeHexL (h1 :: h2 :: rest))
  ∧ (∀ c rest, c ≠ '%' → decodeHexL (c :: rest) = c :: decodeHexL rest)
  ∧ decodeHexL ['%'] = ['%']
  ∧ (∀ c, decodeHexL ['%', c] = ['%', c])
  ∧ (∀ l, '\r' ∉ stripNewlinesL l ∧ '\n' ∉ stripNewlinesL l) := by
  refine ⟨rfl, ?_, ?_, ?_, ?_, rfl, ?_, ?_⟩
  · intro h
    simp [decodeUrl, h]
  · intro h1 h2 rest hh1 hh2
    simp [decodeHexL, hh1, hh2]
  · intro h1 h2 rest hno
    simp [decodeHexL, hno]
  · intro c rest hc
    match rest with
    | [] => simp [decodeHexL, hc]
    | [d] => simp [decodeHexL, hc]
    | d :: e :: t => simp [decodeHexL, hc]
  · intro c
    show '%' :: decodeHexL [c] = ['%', c]
    rw [decodeHexL_one]
  · intro l
    constructor <;> simp [stripNewlinesL, List.mem_filter]

/-- Witness for C6: concrete decodings, including a non-hex passthrough, a
newline removal, a trim and a double decode. -/
theorem c6_decode_url_witness :
    decodeUrl conf0 "" = none
  ∧ decodeUrl conf0 " a%20b%zz\nc " = some "a b%zzc"
  ∧ decodeUrl confDD "%2541" = some "A" := by
  refine ⟨(c6_decode_url conf0 "x").1, ?_, ?_⟩
  · exact (c6_decode_url conf0 " a%20b%zz\nc ").2.1 (by decide)
  · exact (c6_decode_url confDD "%2541").2.1 (by decide)

/-! ## C8: keyphrases only for Google referers -/

theorem strstrSuffix_isSome (s pat : List Char) :
    (strstrSuffix s pat).isSome = true ↔ pat <:+: s := by
  induction s with
  | nil =>
    unfold strstrSuffix
    by_cases h : pat.isPrefixOf ([] : List Char)
    · rw [if_pos h]
      simp only [List.isPrefixOf_iff_prefix] at h
      simp [List.infix_nil, List.prefix_nil.mp h]
    · rw [if_neg h]
      simp only [List.infix_nil, Option.isSome_none, Bool.false_eq_true, false_iff]
      exact fun he => h (by subst he; rfl)
  | cons a t ih =>
    unfold strstrSuffix
    by_cases h : pat.isPrefixOf (a :: t)
    · rw [if_pos h]
      simp only [List.isPrefixOf_iff_prefix] at h
      simp [List.infix_cons_iff, h]
    · rw [if_neg h]
      rw [ih, List.infix_cons_iff]
      simp only [List.isPrefixOf_iff_prefix] at h
      simp [h]

theorem hasSub_of_hasSub_of_sub (s p q : String) (hq : hasSub s q = true)
    (hpq : p.data <:+: q.data) : hasSub s p = true := by
  rw [hasSub, strstrSuffix_isSome] at hq ⊢
  exact hpq.trans hq

/-- Nothing but `process_keyphrases` touches the keyphrases table inside
`process_referrers`. -/
theorem processReferrers_keyphrases_frame (conf : Conf) (ref : String) (site : String)
    (tb : Tables) (h : processKeyphrases conf ref = none) :
    (processReferrers conf (some ref) site tb).keyphrases = tb.keyphrases := by
  unfold processReferrers
  dsimp only
  rw [h]
  repeat' split
  all_goals simp_all

/-- C8: a keyphrase is recorded (the keyphrases table changes) only when the
raw, not-yet-decoded referer contains one of the three Google hosts; a
referer containing none of them records nothing. -/
theorem c8_keyphrases (conf : Conf) (r : Option String) (site : String) (tb : Tables)
    (h : (processReferrers conf r site tb).keyphrases ≠ tb.keyphrases) :
    ∃ ref, r = some ref ∧
      (hasSub ref "www.google." = true ∨ hasSub ref "webcache.googleusercontent.com" = true ∨
       hasSub ref "translate.googleusercontent.com" = true) := by
  cases r with
  | none => exact absurd rfl h
  | some ref =>
    refine ⟨ref, rfl, ?_⟩
    by_cases hk : processKeyphrases conf ref = none
    · exact absurd (processReferrers_keyphrases_frame conf ref site tb hk) h
    · have hg : (hasSub ref "http://www.google."
          || hasSub ref "http://webcache.googleusercontent.com/"
          || hasSub ref "http://translate.googleusercontent.com/") = true := by
        by_contra hbad
        apply hk
        unfold processKeyphrases
        rw [Bool.not_eq_true] at hbad
        rw [hbad]
        rfl
      simp only [Bool.or_eq_true] at hg
      rcases hg with (hg1 | hg2) | hg3
      · exact Or.inl (hasSub_of_hasSub_of_sub ref "www.google." "http://www.google." hg1
          (by decide))
      · exact Or.inr (Or.inl (hasSub_of_hasSub_of_sub ref "webcache.googleusercontent.com"
          "http://webcache.googleusercontent.com/" hg2 (by decide)))
      · exact Or.inr (Or.inr (hasSub_of_hasSub_of_sub ref "translate.googleusercontent.com"
          "http://translate.googleusercontent.com/" hg3 (by decide)))

/-- Witness for C8: the Google referer of the spec's scenario records the
keyphrase `hello world`. -/
theorem c8_keyphrases_witness :
    processKeyphrases conf0 refGoogle = some "hello world"
  ∧ ∃ ref, (some refGoogle : Option String) = some ref ∧
      (hasSub ref "www.google." = true ∨ hasSub ref "webcache.googleusercontent.com" = true ∨
       hasSub ref "translate.googleusercontent.com" = true) := by
  refine ⟨by decide, c8_keyphrases conf0 (some refGoogle) "" initTables (by decide)⟩

/-! ## C1 and C2: the driver and its counters -/

theorem preProcessLog_counts (ext : Ext) (conf : Conf) (line : String) (st : GLog × Tables) :
    (preProcessLog ext conf false line st).1.process
        = st.1.process + (if classifyLine ext conf line = LineClass.ignored then 0 else 1)
  ∧ (preProcessLog ext conf false line st).1.invalid
        = st.1.invalid + (if classifyLine ext conf line = LineClass.ignored
            ∨ classifyLine ext conf line = LineClass.invalid then 1 else 0) := by
  unfold preProcessLog classifyLine
  repeat' split
  all_goals simp_all [countInvalid, countProcess]
  all_goals (split_ifs at * <;> simp_all [countInvalid, countProcess])

theorem preProcessLog_test_keeps_tables (ext : Ext) (conf : Conf) (line : String)
    (st : GLog × Tables) : (preProcessLog ext conf true line st).2 = st.2 := by
  unfold preProcessLog
  repeat' split
  all_goals simp_all

theorem foldl_test_keeps_tables (ext : Ext) (conf : Conf) (lines : List String) :
    ∀ st : GLog × Tables,
      (lines.foldl (fun s l => preProcessLog ext conf true l s) st).2 = st.2 := by
  induction lines with
  | nil => intro st; rfl
  | cons l t ih =>
    intro st
    rw [List.foldl_cons, ih, preProcessLog_test_keeps_tables]

theorem readLogAux_eq_foldl (ext : Ext) (conf : Conf) (test : Bool) (n : Int) (hn : 0 ≤ n) :
    ∀ (lines : List String) (i : Int), 0 ≤ i → i ≤ n → ∀ st : GLog × Tables,
      readLogAux ext conf test n lines i st
        = (lines.take (n - i).toNat).foldl (fun s l => preProcessLog ext conf test l s) st := by
  intro lines
  induction lines with
  | nil => intro i hi0 hin st; simp [readLogAux]
  | cons l t ih =>
    intro i hi0 hin st
    unfold readLogAux
    by_cases hie : i = n
    · rw [if_pos ⟨hn, hie⟩]
      have h0 : (n - i).toNat = 0 := by omega
      simp [h0]
    · rw [if_neg (by exact fun hcon => hie hcon.2)]
      have h1 : (n - i).toNat = (n - (i + 1)).toNat + 1 := by omega
      rw [h1, List.take_succ_cons, List.foldl_cons]
      exact ih (i + 1) (by omega) (by omega) _

theorem testFormat_success_bool (p inv : Nat) :
    (!(p == 0 || p == inv)) = decide (0 < p ∧ p ≠ inv) := by
  by_cases h0 : p = 0 <;> by_cases h1 : p = inv <;>
    simp [h0, h1, Nat.pos_iff_ne_zero]

/-- C1: `test_format` runs the driver in test mode over at most 20 lines and
succeeds exactly when `logger.process > 0` and `logger.process ≠
logger.invalid`; in test mode the counter tables are never dispatched to
(they stay at their initial value). -/
theorem c1_test_format (ext : Ext) (conf : Conf) (lines : List String)
    (hd : conf.date_format ≠ "") (hl : conf.log_format ≠ "") :
    testFormat ext conf lines
      = some (decide (0 < ((lines.take 20).foldl (fun s l => preProcessLog ext conf true l s)
              (initGLog, initTables)).1.process
          ∧ ((lines.take 20).foldl (fun s l => preProcessLog ext conf true l s)
              (initGLog, initTables)).1.process
            ≠ ((lines.take 20).foldl (fun s l => preProcessLog ext conf true l s)
              (initGLog, initTables)).1.invalid))
  ∧ ((lines.take 20).foldl (fun s l => preProcessLog ext conf true l s)
        (initGLog, initTables)).2 = initTables := by
  have hfold : readLog ext conf lines 20 (initGLog, initTables)
      = (lines.take 20).foldl (fun s l => preProcessLog ext conf true l s)
          (initGLog, initTables) := by
    unfold readLog
    rw [readLogAux_eq_foldl ext conf _ 20 (by omega) lines 0 (by omega) (by omega)]
    norm_num
    rfl
  constructor
  · unfold testFormat parseLog
    rw [if_neg (by simp [hd, hl])]
    dsimp only
    rw [hfold, testFormat_success_bool]
  · exact foldl_test_keeps_tables ext conf (lines.take 20) (initGLog, initTables)

/-- Witness for C1: a fully parsing single line gives success with untouched
tables. -/
theorem c1_test_format_witness :
    testFormat ext0 confW ["1.2.3.4 2014 /x"] = some true
  ∧ ((["1.2.3.4 2014 /x"].take 20).foldl (fun s l => preProcessLog ext0 confW true l s)
        (initGLog, initTables)).2 = initTables := by
  have h := c1_test_format ext0 confW ["1.2.3.4 2014 /x"] (by decide) (by decide)
  exact ⟨h.1, h.2⟩

theorem foldl_counters (ext : Ext) (conf : Conf) (lines : List String) :
    ∀ st : GLog × Tables,
      (lines.foldl (fun s l => preProcessLog ext conf false l s) st).1.process
        = st.1.process
          + lines.countP (fun l => !decide (classifyLine ext conf l = LineClass.ignored))
    ∧ (lines.foldl (fun s l => preProcessLog ext conf false l s) st).1.invalid
        = st.1.invalid
          + lines.countP (fun l => decide (classifyLine ext conf l = LineClass.ignored
              ∨ classifyLine ext conf l = LineClass.invalid)) := by
  induction lines with
  | nil => intro st; simp
  | cons l t ih =>
    intro st
    rw [List.foldl_cons]
    have hc := preProcessLog_counts ext conf l st
    have hi := ih (preProcessLog ext conf false l st)
    constructor
    · rw [hi.1, hc.1, List.countP_cons]
      by_cases h : classifyLine ext conf l = LineClass.ignored <;> simp [h] <;> omega
    · rw [hi.2, hc.2, List.countP_cons]
      by_cases h : classifyLine ext conf l = LineClass.ignored
          ∨ classifyLine ext conf l = LineClass.invalid <;> simp [h] <;> omega

theorem countP_classes (ext : Ext) (conf : Conf) (lines : List String)
    (h : ∀ l ∈ lines, classifyLine ext conf l ≠ LineClass.ignored) :
    lines.countP (fun l => decide (classifyLine ext conf l = LineClass.invalid))
      + lines.countP (fun l => decide (classifyLine ext conf l = LineClass.excluded))
      + lines.countP (fun l => decide (classifyLine ext conf l = LineClass.accepted))
    = lines.countP (fun l => !decide (classifyLine ext conf l = LineClass.ignored)) := by
  induction lines with
  | nil => rfl
  | cons l t ih =>
    have hl := h l (by simp)
    have ht := ih (fun x hx => h x (by simp [hx]))
    rw [List.countP_cons, List.countP_cons, List.countP_cons, List.countP_cons]
    cases hcl : classifyLine ext conf l <;> simp [hcl] at hl ⊢ <;> omega

/-- C2 (amended): in full mode, `invalid + accepted + excluded = process`
holds for every input containing no ignored line (a line beginning with `#`
or `\n`, or empty).  An ignored line breaks the equation as stated because
`pre_process_log` counts it as invalid without counting it as processed —
see the counterexample. -/
theorem c2_amended (ext : Ext) (conf : Conf) (lines : List String)
    (h : ∀ l ∈ lines, classifyLine ext conf l ≠ LineClass.ignored) :
    (lines.foldl (fun s l => preProcessLog ext conf false l s) (initGLog, initTables)).1.invalid
      + lines.countP (fun l => decide (classifyLine ext conf l = LineClass.accepted))
      + lines.countP (fun l => decide (classifyLine ext conf l = LineClass.excluded))
    = (lines.foldl (fun s l => preProcessLog ext conf false l s) (initGLog, initTables)).1.process := by
  have hf := foldl_counters ext conf lines (initGLog, initTables)
  rw [hf.1, hf.2]
  have hii : lines.countP (fun l => decide (classifyLine ext conf l = LineClass.ignored
        ∨ classifyLine ext conf l = LineClass.invalid))
      = lines.countP (fun l => decide (classifyLine ext conf l = LineClass.invalid)) := by
    apply List.countP_congr
    intro x hx
    have hnx := h x hx
    simp [hnx]
  rw [hii]
  have hcc := countP_classes ext conf lines h
  show (0 : Nat) + _ + _ + _ = (0 : Nat) + _
  omega

/-- C2 is false as stated on an input with a comment line: `#c` increments
`invalid` but not `process`, so `invalid + accepted + excluded ≠ process`. -/
theorem c2_counterexample :
    ¬ ((["#c"].foldl (fun s l => preProcessLog ext0 confW false l s)
          (initGLog, initTables)).1.invalid
        + ["#c"].countP (fun l => decide (classifyLine ext0 confW l = LineClass.accepted))
        + ["#c"].countP (fun l => decide (classifyLine ext0 confW l = LineClass.excluded))
      = (["#c"].foldl (fun s l => preProcessLog ext0 confW false l s)
          (initGLog, initTables)).1.process) := by
  decide

/-- Witness for the amended C2 on a one-line accepted input. -/
theorem c2_amended_witness :
    (["1.2.3.4 2014 /x"].foldl (fun s l => preProcessLog ext0 confW false l s)
        (initGLog, initTables)).1.invalid
      + ["1.2.3.4 2014 /x"].countP (fun l => decide (classifyLine ext0 confW l = LineClass.accepted))
      + ["1.2.3.4 2014 /x"].countP (fun l => decide (classifyLine ext0 confW l = LineClass.excluded))
    = (["1.2.3.4 2014 /x"].foldl (fun s l => preProcessLog ext0 confW false l s)
        (initGLog, initTables)).1.process := by
  exact c2_amended ext0 confW ["1.2.3.4 2014 /x"] (by decide)

end GoAccess
